import Mathlib

/-!
Shallow embedding of the process/scheduling core of a teaching OS kernel
(rCore-style labs): the stride scheduler's `Stride` type, the scheduling
metadata (`SyscallInfo`), and the process-management and file syscalls from
`src/os/src/syscall/{process,fs}.rs` and `src/os/src/task/task.rs`.

Machine integers (`usize` on riscv64) are modelled as `Nat` with explicit
wrapping `% 2^64` where the release-build Rust arithmetic wraps.
-/

set_option autoImplicit false

/-- Modulus of `usize` arithmetic on the riscv64 target. -/
def USIZE_MOD : Nat := 2 ^ 64

/-- Modelled from the spec: `BIG_STRIDE` is defined in `config.rs`, which is
not under `src/`; the spec describes it as "a large constant, e.g. 2^24". -/
def BIG_STRIDE : Nat := 2 ^ 24

/-- Modelled from the spec: `MAX_SYSCALL_NUM` is defined in `config.rs`, which
is not under `src/`; the spec only requires a fixed-size per-syscall counter
array, so the concrete size is irrelevant to the claims. -/
def MAX_SYSCALL_NUM : Nat := 500

/-- Modelled from the spec: pages are 4 KiB ("aligned for multi of 4 KB"). -/
def PAGE_SIZE : Nat := 4096

/-- Wrapping `usize` subtraction `a - b` (release-build Rust semantics). -/
def usizeSub (a b : Nat) : Nat := (a + (USIZE_MOD - b % USIZE_MOD)) % USIZE_MOD

/-- Wrapping `usize` addition `a + b` (release-build Rust semantics). -/
def usizeAdd (a b : Nat) : Nat := (a + b) % USIZE_MOD

/-- `usize::cmp` — ordinary numeric comparison of unsigned integers. -/
def natCmp (a b : Nat) : Ordering :=
  if a < b then .lt else if b < a then .gt else .eq

/-- The `Stride` newtype around `usize` from `task.rs`. -/
structure Stride where
  val : Nat
deriving Repr, DecidableEq

/-- `Stride::new` from `task.rs`. -/
def Stride.new (t : Nat) : Stride := ⟨t⟩

/-- Embedding of `Stride`'s `PartialOrd::partial_cmp` from `task.rs`:
`if self.0 - other.0 > BIG_STRIDE / 2 { Some(self.0.cmp(&other.0)) } else
{ Some(other.0.cmp(&self.0)) }` with release-build wrapping subtraction. -/
def Stride.pcmp (self other : Stride) : Option Ordering :=
  if BIG_STRIDE / 2 < usizeSub self.val other.val then
    some (natCmp self.val other.val)
  else
    some (natCmp other.val self.val)

/-- Embedding of `Stride`'s `PartialEq::eq` from `task.rs`, which ignores both
arguments and returns `false`. -/
def Stride.eq (_self _other : Stride) : Bool := false

/-- The scheduling metadata `SyscallInfo` from `task.rs`. -/
structure SyscallInfo where
  syscall_times : List Nat
  time : Nat
  stride : Stride
  pass : Nat
  priority : Nat
deriving Repr, DecidableEq

/-- `SyscallInfo::add_stride` from `task.rs`: `self.stride.0 += self.pass`,
wrapping `usize` addition in a release build. -/
def SyscallInfo.add_stride (s : SyscallInfo) : SyscallInfo :=
  { s with stride := ⟨usizeAdd s.stride.val s.pass⟩ }

/-- Helper: `usizeSub a a = 0` for any `a`. -/
theorem usizeSub_self (a : Nat) : usizeSub a a = 0 := by
  unfold usizeSub USIZE_MOD
  omega

/-- Helper: `natCmp a a = .eq`. -/
theorem natCmp_self (a : Nat) : natCmp a a = .eq := by
  simp [natCmp]

/-- C1 (counterexample): the stride values 5 and 3 have true difference
`2 ≤ BIG_STRIDE / 2`, yet `partial_cmp` reports `Less` while ordinary numeric
comparison of the underlying integers reports `Greater` — the wraparound-aware
comparison does not order them the same way as numeric comparison. -/
theorem stride_cmp_claim_counterexample :
    (5 : Nat) - 3 ≤ BIG_STRIDE / 2 ∧
    natCmp 5 3 = .gt ∧
    Stride.pcmp ⟨5⟩ ⟨3⟩ = some .lt := by
  refine ⟨by decide, by decide, ?_⟩
  decide

/-- C1 (amended): `Stride::partial_cmp` compares in reverse of the claim.
When the wrapped difference `self - other (mod 2^64)` is at most
`BIG_STRIDE/2` it returns the numeric comparison of `other` versus `self`,
and only when that wrapped difference exceeds `BIG_STRIDE/2` does it return
the numeric comparison of `self` versus `other`. Consequently, for two
distinct strides `a < b` within `BIG_STRIDE/2` of each other and not
separated by a wraparound, `partial_cmp` answers `Less` in both argument
orders; and for a pair separated by a wraparound (circular distance at most
`BIG_STRIDE/2`), it answers `Greater` in both argument orders. -/
theorem stride_cmp_reversed_within_half_window (a b : Nat)
    (hb : b < USIZE_MOD) (hab : a < b) :
    (b - a ≤ BIG_STRIDE / 2 →
      Stride.pcmp ⟨a⟩ ⟨b⟩ = some .lt ∧ Stride.pcmp ⟨b⟩ ⟨a⟩ = some .lt) ∧
    (USIZE_MOD - BIG_STRIDE / 2 ≤ b - a →
      Stride.pcmp ⟨a⟩ ⟨b⟩ = some .gt ∧ Stride.pcmp ⟨b⟩ ⟨a⟩ = some .gt) := by
  have ha : a < USIZE_MOD := lt_trans hab hb
  have hsub_ab : usizeSub a b = USIZE_MOD - (b - a) := by
    unfold usizeSub
    have hbm : b % USIZE_MOD = b := Nat.mod_eq_of_lt hb
    rw [hbm]
    have h1 : a + (USIZE_MOD - b) < USIZE_MOD := by omega
    rw [Nat.mod_eq_of_lt h1]
    omega
  have hsub_ba : usizeSub b a = b - a := by
    unfold usizeSub
    have ham : a % USIZE_MOD = a := Nat.mod_eq_of_lt ha
    rw [ham]
    have h1 : b + (USIZE_MOD - a) = USIZE_MOD + (b - a) := by omega
    rw [h1, Nat.add_mod_left, Nat.mod_eq_of_lt (by omega)]
  have hBS : BIG_STRIDE / 2 < USIZE_MOD - BIG_STRIDE / 2 := by decide
  constructor
  · intro hsmall
    constructor
    · unfold Stride.pcmp
      rw [hsub_ab, if_pos (by omega)]
      simp [natCmp, hab]
    · unfold Stride.pcmp
      rw [hsub_ba, if_neg (by omega)]
      simp [natCmp, hab]
  · intro hwrap
    constructor
    · unfold Stride.pcmp
      rw [hsub_ab, if_neg (by omega)]
      simp [natCmp, hab, Nat.not_lt.mpr (Nat.le_of_lt hab)]
    · unfold Stride.pcmp
      rw [hsub_ba, if_pos (by omega)]
      simp [natCmp, hab, Nat.not_lt.mpr (Nat.le_of_lt hab)]

/-- C1 (witness): at the concrete strides 3 and 5 — true difference 2, no
wraparound — `partial_cmp` answers `Less` in both argument orders. -/
theorem stride_cmp_reversed_witness :
    Stride.pcmp ⟨3⟩ ⟨5⟩ = some .lt ∧ Stride.pcmp ⟨5⟩ ⟨3⟩ = some .lt :=
  (stride_cmp_reversed_within_half_window 3 5 (by decide) (by decide)).1
    (by decide)

/-- C9: one dispatch step (`SyscallInfo::add_stride`) produces
`stride' = (stride + pass) mod 2^64`: the result is always a representable
`usize` congruent to the unbounded sum modulo the integer width, so stride
accumulation never fails on overflow. -/
theorem add_stride_wraps (s : SyscallInfo) :
    s.add_stride.stride.val = (s.stride.val + s.pass) % USIZE_MOD ∧
    s.add_stride.stride.val < USIZE_MOD ∧
    s.add_stride.stride.val ≡ s.stride.val + s.pass [MOD USIZE_MOD] := by
  refine ⟨rfl, ?_, ?_⟩
  · exact Nat.mod_lt _ (by decide)
  · exact Nat.mod_modEq _ _

/-- C10: `Stride::eq` ignores its arguments and returns `false` — in
particular `a = a` is reported unequal, so the relation is never reflexive,
while `partial_cmp a a` simultaneously reports `Equal`, so the comparison is
inconsistent with equality. -/
theorem stride_eq_always_false (a b : Stride) :
    Stride.eq a b = false ∧
    Stride.eq a a = false ∧
    Stride.pcmp a a = some .eq := by
  refine ⟨rfl, rfl, ?_⟩
  unfold Stride.pcmp
  rw [usizeSub_self, if_neg (by omega), natCmp_self]

/-- The slice of per-task state read and written by `sys_set_priority`
(`taskinfo.priority` and `taskinfo.pass` of the calling task). -/
structure PrioState where
  priority : Nat
  pass : Nat
deriving Repr, DecidableEq

/-- Embedding of `sys_set_priority` from `process.rs`: returns `-1` when
`_prio <= 1`; otherwise stores `priority = _prio as usize`,
`pass = BIG_STRIDE / priority` and echoes `_prio`. -/
def sys_set_priority (st : PrioState) (prio : Int) : Int × PrioState :=
  if prio ≤ 1 then (-1, st)
  else
    let u_prio := prio.toNat
    (prio, { priority := u_prio, pass := BIG_STRIDE / u_prio })

/-- C3: `sys_set_priority p` returns `-1` and leaves priority and pass
unchanged when `p ≤ 1`; when `p ≥ 2` it returns `p`, sets the task's priority
to `p` and immediately recomputes `pass = BIG_STRIDE / p`. -/
theorem sys_set_priority_spec (st : PrioState) (p : Int) :
    (p ≤ 1 → sys_set_priority st p = (-1, st)) ∧
    (2 ≤ p →
      sys_set_priority st p = (p, ⟨p.toNat, BIG_STRIDE / p.toNat⟩)) := by
  constructor
  · intro h
    simp [sys_set_priority, h]
  · intro h
    simp [sys_set_priority]
    omega

/-- C3 (witness): from the default priority 16, `set_priority 1` fails and
leaves priority/pass unchanged, while `set_priority 2` succeeds and
immediately recomputes the pass. -/
theorem sys_set_priority_spec_witness :
    sys_set_priority ⟨16, BIG_STRIDE / 16⟩ 1 = (-1, ⟨16, BIG_STRIDE / 16⟩) ∧
    sys_set_priority ⟨16, BIG_STRIDE / 16⟩ 2 = (2, ⟨2, BIG_STRIDE / 2⟩) := by
  constructor
  · exact (sys_set_priority_spec ⟨16, BIG_STRIDE / 16⟩ 1).1 (by decide)
  · have h := (sys_set_priority_spec ⟨16, BIG_STRIDE / 16⟩ 2).2 (by decide)
    rw [h]
    decide

/-- The heap-bound slice of a task control block used by
`change_program_brk` (`heap_bottom` and `program_brk`). -/
structure BrkState where
  heap_bottom : Nat
  program_brk : Nat
deriving Repr, DecidableEq

/-- Embedding of `TaskControlBlock::change_program_brk` from `task.rs`:
`new_brk = program_brk as isize + size as isize`; returns `None` when
`new_brk < heap_bottom`, else adjusts the heap region and commits
`program_brk = new_brk`, returning the old break.

Modelled from the spec: `MemorySet::shrink_to` / `append_to` live in `mm`
(not under `src/`); per the spec they adjust the single heap region's upper
bound and succeed once `new_brk ≥ heap_bottom`, so the `result` flag is
`true` on this path. -/
def change_program_brk (st : BrkState) (size : Int) :
    Option Nat × BrkState :=
  let new_brk : Int := (st.program_brk : Int) + size
  if new_brk < (st.heap_bottom : Int) then (none, st)
  else (some st.program_brk, { st with program_brk := new_brk.toNat })

/-- Embedding of `sys_sbrk` from `process.rs`: surfaces
`change_program_brk`'s `Some(old_brk)` as `old_brk` and `None` as `-1`. -/
def sys_sbrk (st : BrkState) (size : Int) : Int × BrkState :=
  match change_program_brk st size with
  | (some old_brk, st') => ((old_brk : Int), st')
  | (none, st') => (-1, st')

/-- C5: `change_program_brk` fails (returns `none`, surfaced by `sys_sbrk`
as `-1`) and leaves `program_brk` unchanged when
`program_brk + delta < heap_bottom`; otherwise it commits
`program_brk = program_brk + delta` and returns the old break. In
particular `sbrk (+4096)` followed by `sbrk (-4096)` restores `program_brk`
to its original value. -/
theorem change_program_brk_spec (st : BrkState) (size : Int) :
    ((st.program_brk : Int) + size < (st.heap_bottom : Int) →
      change_program_brk st size = (none, st) ∧
      sys_sbrk st size = (-1, st)) ∧
    ((st.heap_bottom : Int) ≤ (st.program_brk : Int) + size →
      change_program_brk st size =
        (some st.program_brk,
         ⟨st.heap_bottom, ((st.program_brk : Int) + size).toNat⟩) ∧
      sys_sbrk st size =
        ((st.program_brk : Int),
         ⟨st.heap_bottom, ((st.program_brk : Int) + size).toNat⟩)) ∧
    (st.heap_bottom ≤ st.program_brk →
      (sys_sbrk (sys_sbrk st 4096).2 (-4096)).2.program_brk
        = st.program_brk) := by
  refine ⟨?_, ?_, ?_⟩
  · intro h
    constructor
    · simp [change_program_brk, h]
    · simp [sys_sbrk, change_program_brk, h]
  · intro h
    constructor
    · simp [change_program_brk, Int.not_lt.mpr h]
    · simp [sys_sbrk, change_program_brk, Int.not_lt.mpr h]
  · intro h
    have h1 : ¬ ((st.program_brk : Int) + 4096 < (st.heap_bottom : Int)) := by
      omega
    have e1 : (sys_sbrk st 4096).2 =
        ⟨st.heap_bottom, ((st.program_brk : Int) + 4096).toNat⟩ := by
      simp only [sys_sbrk, change_program_brk]
      rw [if_neg h1]
    rw [e1]
    have h2 : ¬ (((((st.program_brk : Int) + 4096).toNat : Nat) : Int) +
        (-4096) < (st.heap_bottom : Int)) := by omega
    have e3 : (sys_sbrk ⟨st.heap_bottom,
        ((st.program_brk : Int) + 4096).toNat⟩ (-4096)).2.program_brk =
        (((((st.program_brk : Int) + 4096).toNat : Nat) : Int) +
          (-4096)).toNat := by
      simp only [sys_sbrk, change_program_brk]
      rw [if_neg h2]
    rw [e3]
    omega

/-- C5 (witness): with `heap_bottom = program_brk = 65536`,
`sbrk (-1)` fails leaving the break unchanged, `sbrk 4096` succeeds
returning the old break, and `sbrk 4096` then `sbrk (-4096)` restores the
original break. -/
theorem change_program_brk_spec_witness :
    sys_sbrk ⟨65536, 65536⟩ (-1) = (-1, ⟨65536, 65536⟩) ∧
    sys_sbrk ⟨65536, 65536⟩ 4096 = (65536, ⟨65536, 69632⟩) ∧
    (sys_sbrk (sys_sbrk ⟨65536, 65536⟩ 4096).2 (-4096)).2.program_brk
      = 65536 := by
  refine ⟨?_, ?_, ?_⟩
  · exact ((change_program_brk_spec ⟨65536, 65536⟩ (-1)).1 (by decide)).2
  · have h := ((change_program_brk_spec ⟨65536, 65536⟩ 4096).2.1
      (by decide)).2
    rw [h]
    decide
  · exact (change_program_brk_spec ⟨65536, 65536⟩ 4096).2.2 (by decide)

/-- The task status enum from `task.rs`. -/
inductive TaskStatus where
  | UnInit
  | Ready
  | Running
  | Zombie
deriving Repr, DecidableEq

/-- The slice of a child task control block read by `sys_waitpid`
(pid, execution status and exit code). -/
structure ChildTCB where
  pid : Nat
  task_status : TaskStatus
  exit_code : Int
deriving Repr, DecidableEq

/-- `TaskControlBlockInner::is_zombie` from `task.rs`. -/
def ChildTCB.is_zombie (c : ChildTCB) : Bool :=
  c.task_status = TaskStatus.Zombie

/-- The pid filter of `sys_waitpid`:
`pid == -1 || pid as usize == p.getpid()` (the `isize` → `usize` cast is a
bit-reinterpretation, i.e. reduction mod 2^64). -/
def pidMatches (pid : Int) (c : ChildTCB) : Bool :=
  pid = -1 ∨ (pid % (USIZE_MOD : Int)).toNat = c.pid

/-- The zombie-and-pid filter used by `sys_waitpid`'s `find` call:
`p.is_zombie() && (pid == -1 || pid as usize == p.getpid())`. -/
def matchesZombie (pid : Int) (c : ChildTCB) : Bool :=
  c.is_zombie && pidMatches pid c

/-- `children.iter().enumerate().find(...)` from `sys_waitpid`: the first
(index, child) pair satisfying the zombie-and-pid filter, indices counted
from `i`. -/
def findZombie (pid : Int) : Nat → List ChildTCB → Option (Nat × ChildTCB)
  | _, [] => none
  | i, c :: rest =>
    if matchesZombie pid c then some (i, c) else findZombie pid (i + 1) rest

/-- Result of one `sys_waitpid` call: the returned value, the caller's
children list afterwards, and the exit code written through the user
output pointer (none when nothing is written). -/
structure WaitOutcome where
  ret : Int
  children : List ChildTCB
  written : Option Int
deriving Repr, DecidableEq

/-- Embedding of `sys_waitpid` from `process.rs`: `-1` when no child passes
the pid filter; otherwise the first matching zombie (in child-list order) is
removed from the children list, its exit code is written through the user
pointer and its pid returned; `-2` when a child matches but none is a
zombie. -/
def sys_waitpid (children : List ChildTCB) (pid : Int) : WaitOutcome :=
  if (children.any fun p => pidMatches pid p) = false then
    ⟨-1, children, none⟩
  else
    match findZombie pid 0 children with
    | some (idx, child) =>
        ⟨(child.pid : Int), children.eraseIdx idx, some child.exit_code⟩
    | none => ⟨-2, children, none⟩

/-- Helper: an element produced by `getElem?` is a member of the list. -/
theorem list_getElem_opt_mem {α : Type} :
    ∀ (l : List α) (k : Nat) (a : α), l[k]? = some a → a ∈ l := by
  intro l
  induction l with
  | nil => intro k a h; simp at h
  | cons x xs ih =>
    intro k a h
    cases k with
    | zero => simp at h; simp [h]
    | succ k' =>
      simp only [List.getElem?_cons_succ] at h
      exact List.mem_cons_of_mem x (ih k' a h)

/-- Helper: `findZombie` finds nothing when no element passes the filter. -/
theorem findZombie_eq_none (pid : Int) :
    ∀ (l : List ChildTCB) (i : Nat),
      (∀ c ∈ l, matchesZombie pid c = false) →
      findZombie pid i l = none := by
  intro l
  induction l with
  | nil => intro i _; rfl
  | cons x xs ih =>
    intro i h
    have hx : matchesZombie pid x = false := h x (List.mem_cons_self x xs)
    simp only [findZombie, hx]
    simp only [Bool.false_eq_true, if_false]
    exact ih (i + 1) fun c hc => h c (List.mem_cons_of_mem x hc)

/-- Helper: `findZombie` returns the first index passing the filter. -/
theorem findZombie_eq_some (pid : Int) :
    ∀ (l : List ChildTCB) (i k : Nat) (c : ChildTCB),
      l[k]? = some c → matchesZombie pid c = true →
      (l.take k).all (fun x => ! matchesZombie pid x) = true →
      findZombie pid i l = some (i + k, c) := by
  intro l
  induction l with
  | nil => intro i k c hget _ _; simp at hget
  | cons x xs ih =>
    intro i k c hget hmz htake
    cases k with
    | zero =>
      simp only [List.getElem?_cons_zero, Option.some.injEq] at hget
      subst hget
      simp only [findZombie, hmz, if_true, Nat.add_zero]
    | succ k' =>
      simp only [List.take_succ_cons, List.all_cons, Bool.and_eq_true,
        Bool.not_eq_true'] at htake
      simp only [findZombie, htake.1, Bool.false_eq_true, if_false]
      simp only [List.getElem?_cons_succ] at hget
      have h := ih (i + 1) k' c hget hmz htake.2
      rw [h]
      simp only [Option.some.injEq, Prod.mk.injEq]
      exact ⟨by omega, trivial⟩

/-- C2: `sys_waitpid` returns `-1` (children untouched, nothing written)
when no child matches the pid filter (`-1` matches any child); returns `-2`
(children untouched, nothing written) when some child matches but no
matching child is a zombie; and when the first matching zombie sits at
index `k`, it removes exactly that child from the children list, writes
that child's exit code through the user output pointer, and returns that
child's pid. -/
theorem sys_waitpid_spec (children : List ChildTCB) (pid : Int) :
    ((∀ c ∈ children, pidMatches pid c = false) →
      sys_waitpid children pid = ⟨-1, children, none⟩) ∧
    ((∃ c ∈ children, pidMatches pid c = true) →
      (∀ c ∈ children, matchesZombie pid c = false) →
      sys_waitpid children pid = ⟨-2, children, none⟩) ∧
    (∀ k c, children[k]? = some c → matchesZombie pid c = true →
      (children.take k).all (fun x => ! matchesZombie pid x) = true →
      sys_waitpid children pid =
        ⟨(c.pid : Int), children.eraseIdx k, some c.exit_code⟩) := by
  refine ⟨?_, ?_, ?_⟩
  · intro h
    have hany : (children.any fun p => pidMatches pid p) = false := by
      simp only [List.any_eq_false]
      intro x hx
      simp [h x hx]
    simp [sys_waitpid, hany]
  · intro hex hall
    have hany : (children.any fun p => pidMatches pid p) = true := by
      simp only [List.any_eq_true]
      obtain ⟨c, hc, hpc⟩ := hex
      exact ⟨c, hc, hpc⟩
    have hfz : findZombie pid 0 children = none :=
      findZombie_eq_none pid children 0 hall
    simp [sys_waitpid, hany, hfz]
  · intro k c hget hmz htake
    have hpc : pidMatches pid c = true := by
      have h2 := hmz
      simp only [matchesZombie, Bool.and_eq_true] at h2
      exact h2.2
    have hany : (children.any fun p => pidMatches pid p) = true := by
      simp only [List.any_eq_true]
      exact ⟨c, list_getElem_opt_mem children k c hget, hpc⟩
    have hfz : findZombie pid 0 children = some (k, c) := by
      have h := findZombie_eq_some pid children 0 k c hget hmz htake
      simpa using h
    simp [sys_waitpid, hany, hfz]

/-- C2 (witness): on two children — pid 2 Running and pid 3 Zombie with exit
code 7 — `waitpid(-1)` returns 3, removes the zombie and writes 7; a second
call with only the Running child left returns `-2`; a call with zero
children returns `-1`. -/
theorem sys_waitpid_spec_witness :
    sys_waitpid [⟨2, .Running, 0⟩, ⟨3, .Zombie, 7⟩] (-1) =
      ⟨3, [⟨2, .Running, 0⟩], some 7⟩ ∧
    sys_waitpid [⟨2, .Running, 0⟩] (-1) = ⟨-2, [⟨2, .Running, 0⟩], none⟩ ∧
    sys_waitpid ([] : List ChildTCB) (-1) = ⟨-1, [], none⟩ := by
  refine ⟨?_, ?_, ?_⟩
  · have h := (sys_waitpid_spec [⟨2, .Running, 0⟩, ⟨3, .Zombie, 7⟩] (-1)).2.2
      1 ⟨3, .Zombie, 7⟩ (by decide) (by decide) (by decide)
    rw [h]
    decide
  · exact (sys_waitpid_spec [⟨2, .Running, 0⟩] (-1)).2.1
      (by decide) (by decide)
  · exact (sys_waitpid_spec ([] : List ChildTCB) (-1)).1 (by decide)

/-- The `MapPermission` bits R/W/X/U from `mm`, as carried by a region. -/
structure MapPerm where
  r : Bool
  w : Bool
  x : Bool
  u : Bool
deriving Repr, DecidableEq

/-- One mapped virtual region of an address space: a half-open virtual
address range with its permission mask. -/
structure MapArea where
  start_va : Nat
  end_va : Nat
  perm : MapPerm
deriving Repr, DecidableEq

/-- Virtual page number of the page containing address `a` (floor). -/
def vpnFloor (a : Nat) : Nat := a / PAGE_SIZE

/-- First virtual page number at or after address `a` (ceiling). -/
def vpnCeil (a : Nat) : Nat := (a + PAGE_SIZE - 1) / PAGE_SIZE

/-- Modelled from the spec: whether the page range of `[s, e)` intersects the
page range of some region already in the address space (regions are
page-granular, floor at the start and ceiling at the end). -/
def rangeOverlaps (ms : List MapArea) (s e : Nat) : Bool :=
  ms.any fun a => vpnFloor s < vpnCeil a.end_va && vpnFloor a.start_va < vpnCeil e

/-- Modelled from the spec: `judge_allocation` (in `mm`, not under `src/`)
"judges whether the page was allocated before"; per the spec's
`insert_framed_region`, a request is rejected — `None` — exactly when the
range intersects an existing region. -/
def judge_allocation (ms : List MapArea) (s e : Nat) : Option Unit :=
  if rangeOverlaps ms s e then none else some ()

/-- Modelled from the spec: `MemorySet::insert_framed_area` (in `mm`, not
under `src/`) registers a new framed region with the given bounds and
permissions. -/
def insert_framed_area (ms : List MapArea) (s e : Nat) (p : MapPerm) :
    List MapArea :=
  ms ++ [⟨s, e, p⟩]

/-- Embedding of `TaskControlBlock::push_current_area` from `task.rs`:
returns `-1` leaving the address space unchanged when `judge_allocation`
rejects the range, else inserts the framed region and returns `0`. -/
def push_current_area (ms : List MapArea) (s e : Nat) (p : MapPerm) :
    Int × List MapArea :=
  match judge_allocation ms s e with
  | none => (-1, ms)
  | some _ => (0, insert_framed_area ms s e p)

/-- Embedding of `sys_mmap` from `process.rs`: rejects a start address with
a nonzero page offset; rejects `port` when `port & 0x7 == 0` or
`port & !0x7 != 0`; builds `MapPermission::U` plus R/W/X from the low three
bits; then defers to `push_current_area` with `end_va = len + start`. -/
def sys_mmap (ms : List MapArea) (start len port : Nat) :
    Int × List MapArea :=
  if start % PAGE_SIZE ≠ 0 then (-1, ms)
  else
    let end_va := usizeAdd len start
    if port &&& 0x7 = 0 ∨ port &&& (USIZE_MOD - 8) ≠ 0 then (-1, ms)
    else
      let map_perm : MapPerm :=
        ⟨port &&& 0x1 = 1, port &&& 0x2 = 2, port &&& 0x4 = 4, true⟩
      push_current_area ms start end_va map_perm

/-- C4: `sys_mmap` returns `-1` with the address space unchanged when the
start address is not page-aligned, when `port` has no bits of `0x7` set or
any bit outside `0x7` set, or when the requested range's pages intersect an
already-mapped region; otherwise it appends the new framed region carrying
the requested R/W/X permissions plus user access and returns `0`. Every
failure path leaves the address space unchanged. -/
theorem sys_mmap_spec (ms : List MapArea) (start len port : Nat) :
    (start % PAGE_SIZE ≠ 0 → sys_mmap ms start len port = (-1, ms)) ∧
    (port &&& 0x7 = 0 ∨ port &&& (USIZE_MOD - 8) ≠ 0 →
      sys_mmap ms start len port = (-1, ms)) ∧
    (start % PAGE_SIZE = 0 → port &&& 0x7 ≠ 0 → port &&& (USIZE_MOD - 8) = 0 →
      rangeOverlaps ms start (usizeAdd len start) = true →
      sys_mmap ms start len port = (-1, ms)) ∧
    (start % PAGE_SIZE = 0 → port &&& 0x7 ≠ 0 → port &&& (USIZE_MOD - 8) = 0 →
      rangeOverlaps ms start (usizeAdd len start) = false →
      sys_mmap ms start len port =
        (0, ms ++ [⟨start, usizeAdd len start,
          ⟨port &&& 0x1 = 1, port &&& 0x2 = 2, port &&& 0x4 = 4, true⟩⟩])) := by
  refine ⟨?_, ?_, ?_, ?_⟩
  · intro h
    simp [sys_mmap, h]
  · intro h
    by_cases ha : start % PAGE_SIZE = 0
    · simp [sys_mmap, ha, h]
    · simp [sys_mmap, ha]
  · intro ha hp1 hp2 hov
    simp [sys_mmap, ha, hp1, hp2, push_current_area, judge_allocation, hov]
  · intro ha hp1 hp2 hov
    simp [sys_mmap, ha, hp1, hp2, push_current_area, judge_allocation, hov,
      insert_framed_area]

/-- C4 (witness): with one region `[0x1000, 0x2000)` already mapped,
`mmap(0x1001, …)` (misaligned), `mmap(…, port = 0)`, `mmap(…, port = 9)`
and the overlapping `mmap(0x1000, 0x1000, 3)` each fail with the address
space unchanged, while `mmap(0x3000, 0x1000, 3)` succeeds and appends the
region `[0x3000, 0x4000)` with permissions R, W and U. -/
theorem sys_mmap_spec_witness :
    sys_mmap [⟨4096, 8192, ⟨true, true, false, true⟩⟩] 4097 4096 3 =
      (-1, [⟨4096, 8192, ⟨true, true, false, true⟩⟩]) ∧
    sys_mmap [⟨4096, 8192, ⟨true, true, false, true⟩⟩] 12288 4096 0 =
      (-1, [⟨4096, 8192, ⟨true, true, false, true⟩⟩]) ∧
    sys_mmap [⟨4096, 8192, ⟨true, true, false, true⟩⟩] 12288 4096 9 =
      (-1, [⟨4096, 8192, ⟨true, true, false, true⟩⟩]) ∧
    sys_mmap [⟨4096, 8192, ⟨true, true, false, true⟩⟩] 4096 4096 3 =
      (-1, [⟨4096, 8192, ⟨true, true, false, true⟩⟩]) ∧
    sys_mmap [⟨4096, 8192, ⟨true, true, false, true⟩⟩] 12288 4096 3 =
      (0, [⟨4096, 8192, ⟨true, true, false, true⟩⟩,
           ⟨12288, 16384, ⟨true, true, false, true⟩⟩]) := by
  refine ⟨?_, ?_, ?_, ?_, ?_⟩
  · exact (sys_mmap_spec [⟨4096, 8192, ⟨true, true, false, true⟩⟩]
      4097 4096 3).1 (by decide)
  · exact (sys_mmap_spec [⟨4096, 8192, ⟨true, true, false, true⟩⟩]
      12288 4096 0).2.1 (Or.inl (by decide))
  · exact (sys_mmap_spec [⟨4096, 8192, ⟨true, true, false, true⟩⟩]
      12288 4096 9).2.1 (Or.inr (by decide))
  · exact (sys_mmap_spec [⟨4096, 8192, ⟨true, true, false, true⟩⟩]
      4096 4096 3).2.2.1 (by decide) (by decide) (by decide) (by decide)
  · have h := (sys_mmap_spec [⟨4096, 8192, ⟨true, true, false, true⟩⟩]
      12288 4096 3).2.2.2 (by decide) (by decide) (by decide) (by decide)
    rw [h]
    decide

/-- The slice of a trap frame the claims mention: entry point (`sepc`), user
stack pointer, kernel stack pointer and the return-value register `x[10]`
(a0). The remaining registers and the kernel-satp/trap-handler fields are
set by external trap-layer code and are not read by any claim. -/
structure TrapContext where
  sepc : Nat
  sp : Nat
  kernel_sp : Nat
  x10 : Nat
deriving Repr, DecidableEq

/-- Modelled from the spec: `TrapContext::app_init_context` (trap layer, not
under `src/`) seeds a fresh trap frame with the entry point, user stack top
and kernel stack top; all general registers other than `sp` start zeroed. -/
def app_init_context (entry_point user_sp kernel_sp : Nat) : TrapContext :=
  ⟨entry_point, user_sp, kernel_sp, 0⟩

/-- The task control block from `task.rs` (pid and kernel stack immutable,
the rest the mutable inner state). `memory_set` is an opaque identifier of
the owned address space; `fd_table` holds abstract shared file handles. -/
structure TaskControlBlock where
  pid : Nat
  kernel_stack : Nat
  trap_cx_ppn : Nat
  base_size : Nat
  task_status : TaskStatus
  memory_set : Nat
  parent : Option Nat
  children : List Nat
  exit_code : Int
  fd_table : List (Option Nat)
  heap_bottom : Nat
  program_brk : Nat
  taskinfo : SyscallInfo
  trap_cx : TrapContext
deriving Repr, DecidableEq

/-- Embedding of `TaskControlBlock::fork` from `task.rs`. The externally
allocated resources — the fresh pid (`pid_alloc`), kernel stack top
(`kstack_alloc`), the cloned address space (`MemorySet::from_existed_user`)
and its trap-context frame — enter as parameters. The clone copies the
parent's trap-context page, after which only `kernel_sp` is updated; the
child gets the parent's fd table (shared handles), empty children, parent
back-reference, and fresh scheduling metadata (stride 0, priority 16,
pass `BIG_STRIDE/16`); the child is appended to the parent's children
list. Returns (updated parent, child). -/
def TaskControlBlock.fork (parent : TaskControlBlock)
    (new_pid new_kstack_top new_trap_cx_ppn new_ms : Nat) :
    TaskControlBlock × TaskControlBlock :=
  let child : TaskControlBlock :=
    { pid := new_pid
      kernel_stack := new_kstack_top
      trap_cx_ppn := new_trap_cx_ppn
      base_size := parent.base_size
      task_status := .Ready
      memory_set := new_ms
      parent := some parent.pid
      children := []
      exit_code := 0
      fd_table := parent.fd_table
      heap_bottom := parent.heap_bottom
      program_brk := parent.program_brk
      taskinfo := ⟨List.replicate MAX_SYSCALL_NUM 0, 0, ⟨0⟩, BIG_STRIDE / 16, 16⟩
      trap_cx := { parent.trap_cx with kernel_sp := new_kstack_top } }
  ({ parent with children := parent.children ++ [new_pid] }, child)

/-- Embedding of `sys_fork` from `process.rs`: forks, overwrites the child's
trap-frame return-value register `x[10]` with 0, and returns the child's
pid (the scheduler hand-off `add_task` is external). -/
def sys_fork (parent : TaskControlBlock)
    (new_pid new_kstack_top new_trap_cx_ppn new_ms : Nat) :
    Int × TaskControlBlock × TaskControlBlock :=
  let pc := parent.fork new_pid new_kstack_top new_trap_cx_ppn new_ms
  let new_task : TaskControlBlock :=
    { pc.2 with trap_cx := { pc.2.trap_cx with x10 := 0 } }
  ((new_pid : Int), pc.1, new_task)

/-- C6: `fork` appends the new child to the parent's children list and sets
the child's parent back-reference to the parent; the child carries fresh
scheduling defaults (stride 0, priority 16, pass `BIG_STRIDE/16`); the
child's trap-frame return-value register is overwritten with 0; and
`sys_fork` returns the child's pid to the parent. -/
theorem sys_fork_spec (parent : TaskControlBlock)
    (new_pid new_kstack_top new_trap_cx_ppn new_ms : Nat) :
    (sys_fork parent new_pid new_kstack_top new_trap_cx_ppn new_ms).1 =
      (new_pid : Int) ∧
    (sys_fork parent new_pid new_kstack_top new_trap_cx_ppn new_ms).2.1.children =
      parent.children ++ [new_pid] ∧
    (sys_fork parent new_pid new_kstack_top new_trap_cx_ppn new_ms).2.2.pid =
      new_pid ∧
    (sys_fork parent new_pid new_kstack_top new_trap_cx_ppn new_ms).2.2.parent =
      some parent.pid ∧
    (sys_fork parent new_pid new_kstack_top new_trap_cx_ppn new_ms).2.2.taskinfo.stride =
      ⟨0⟩ ∧
    (sys_fork parent new_pid new_kstack_top new_trap_cx_ppn new_ms).2.2.taskinfo.priority =
      16 ∧
    (sys_fork parent new_pid new_kstack_top new_trap_cx_ppn new_ms).2.2.taskinfo.pass =
      BIG_STRIDE / 16 ∧
    (sys_fork parent new_pid new_kstack_top new_trap_cx_ppn new_ms).2.2.trap_cx.x10 =
      0 :=
  ⟨rfl, rfl, rfl, rfl, rfl, rfl, rfl, rfl⟩

/-- Embedding of `TaskControlBlock::exec` from `task.rs`: the new address
space, trap-context frame, user stack top and entry point produced by
`MemorySet::from_elf` (external) enter as parameters; `exec` substitutes
`memory_set`, updates `trap_cx_ppn`, and re-initializes the trap frame with
the new entry point, the new user stack top and this task's kernel stack
top. -/
def TaskControlBlock.exec (t : TaskControlBlock)
    (new_ms user_sp entry_point new_trap_cx_ppn : Nat) : TaskControlBlock :=
  { t with
    memory_set := new_ms
    trap_cx_ppn := new_trap_cx_ppn
    trap_cx := app_init_context entry_point user_sp t.kernel_stack }

/-- C8: `exec` replaces only the task's address space (`memory_set` and the
trap-context physical page) and re-initializes the trap frame; the task's
pid, kernel stack, children list and file descriptor table — and likewise
its parent link, exit code, status, base size, heap bounds and scheduling
metadata — are all unchanged. -/
theorem exec_frame_spec (t : TaskControlBlock)
    (new_ms user_sp entry_point new_trap_cx_ppn : Nat) :
    (t.exec new_ms user_sp entry_point new_trap_cx_ppn).pid = t.pid ∧
    (t.exec new_ms user_sp entry_point new_trap_cx_ppn).kernel_stack =
      t.kernel_stack ∧
    (t.exec new_ms user_sp entry_point new_trap_cx_ppn).children =
      t.children ∧
    (t.exec new_ms user_sp entry_point new_trap_cx_ppn).fd_table =
      t.fd_table ∧
    (t.exec new_ms user_sp entry_point new_trap_cx_ppn).parent = t.parent ∧
    (t.exec new_ms user_sp entry_point new_trap_cx_ppn).exit_code =
      t.exit_code ∧
    (t.exec new_ms user_sp entry_point new_trap_cx_ppn).task_status =
      t.task_status ∧
    (t.exec new_ms user_sp entry_point new_trap_cx_ppn).base_size =
      t.base_size ∧
    (t.exec new_ms user_sp entry_point new_trap_cx_ppn).heap_bottom =
      t.heap_bottom ∧
    (t.exec new_ms user_sp entry_point new_trap_cx_ppn).program_brk =
      t.program_brk ∧
    (t.exec new_ms user_sp entry_point new_trap_cx_ppn).taskinfo =
      t.taskinfo ∧
    (t.exec new_ms user_sp entry_point new_trap_cx_ppn).memory_set =
      new_ms ∧
    (t.exec new_ms user_sp entry_point new_trap_cx_ppn).trap_cx_ppn =
      new_trap_cx_ppn ∧
    (t.exec new_ms user_sp entry_point new_trap_cx_ppn).trap_cx =
      app_init_context entry_point user_sp t.kernel_stack :=
  ⟨rfl, rfl, rfl, rfl, rfl, rfl, rfl, rfl, rfl, rfl, rfl, rfl, rfl, rfl⟩

/-- The behaviour of a file handle that the fd-table syscalls consult:
its readable/writable capabilities (`Stdin` is readable only, `Stdout`
writable only). -/
structure FileObj where
  readable : Bool
  writable : Bool
deriving Repr, DecidableEq

/-- Embedding of `sys_write` from `fs.rs`: `-1` when `fd` is beyond the fd
table, the slot is empty, or the file is not writable; otherwise the byte
count reported by the external `file.write` (a parameter here). -/
def sys_write (fd_table : List (Option FileObj)) (fd : Nat)
    (write_len : Nat) : Int :=
  if fd_table.length ≤ fd then -1
  else
    match fd_table.getD fd none with
    | some file => if file.writable = false then -1 else (write_len : Int)
    | none => -1

/-- Embedding of `sys_read` from `fs.rs`: `-1` when `fd` is beyond the fd
table, the slot is empty, or the file is not readable; otherwise the byte
count reported by the external `file.read` (a parameter here). -/
def sys_read (fd_table : List (Option FileObj)) (fd : Nat)
    (read_len : Nat) : Int :=
  if fd_table.length ≤ fd then -1
  else
    match fd_table.getD fd none with
    | some file => if file.readable = false then -1 else (read_len : Int)
    | none => -1

/-- Embedding of `sys_close` from `fs.rs`: `-1` when `fd` is beyond the fd
table or the slot is already empty; otherwise takes the handle out of the
slot and returns 0. -/
def sys_close (fd_table : List (Option FileObj)) (fd : Nat) :
    Int × List (Option FileObj) :=
  if fd_table.length ≤ fd then (-1, fd_table)
  else
    match fd_table.getD fd none with
    | none => (-1, fd_table)
    | some _ => (0, fd_table.set fd none)

/-- Embedding of `sys_fstat` from `fs.rs`. Unlike its siblings it indexes
`inner.fd_table[_fd]` with NO bounds check, so an out-of-range fd is a Rust
index-out-of-bounds panic — a kernel crash, modelled as `none`. An empty
slot within bounds returns `some (-1)`; a filled slot writes the stat
record through the user pointer and returns `some 0`. -/
def sys_fstat (fd_table : List (Option FileObj)) (fd : Nat) : Option Int :=
  if fd < fd_table.length then
    match fd_table.getD fd none with
    | some _ => some 0
    | none => some (-1)
  else none

/-- C7 (divergence at the failing input): with the default three-entry fd
table `[stdin, stdout, stdout]`, the bad descriptor `fd = 3` makes
`sys_write`, `sys_read` and `sys_close` return `-1` as claimed, but
`sys_fstat` panics the kernel (out-of-bounds indexing, modelled `none`)
instead of returning `-1`. An empty in-bounds slot (`fd = 1` of
`[stdin, none]`) is reported `-1` uniformly, `sys_fstat` included — only
the missing bounds check diverges. -/
theorem sys_fstat_bad_fd_divergence :
    sys_write [some ⟨true, false⟩, some ⟨false, true⟩, some ⟨false, true⟩]
      3 0 = -1 ∧
    sys_read [some ⟨true, false⟩, some ⟨false, true⟩, some ⟨false, true⟩]
      3 0 = -1 ∧
    sys_close [some ⟨true, false⟩, some ⟨false, true⟩, some ⟨false, true⟩]
      3 =
      (-1, [some ⟨true, false⟩, some ⟨false, true⟩, some ⟨false, true⟩]) ∧
    sys_fstat [some ⟨true, false⟩, some ⟨false, true⟩, some ⟨false, true⟩]
      3 = none ∧
    sys_write [some ⟨true, false⟩, none] 1 0 = -1 ∧
    sys_read [some ⟨true, false⟩, none] 1 0 = -1 ∧
    sys_close [some ⟨true, false⟩, none] 1 =
      (-1, [some ⟨true, false⟩, none]) ∧
    sys_fstat [some ⟨true, false⟩, none] 1 = some (-1) := by
  decide
